import Mathlib

/-!
Shallow embedding of the mach_o crate (src/lib.rs): header parsing
(`Header::new`, `Header::magic`), section lookup (`Header::get_section`,
delegating to the OS `getsect` routines) and the `Section` accessors
(`name`, `segment_name`, `addr`, `data`).

The input buffer is a `List Nat` of bytes.  The host is little-endian, so
`mem::transmute::<[u8; 4], u32>` and direct struct-field reads are embedded
as little-endian reads.  Rust's panicking slice indexing is embedded as an
`Option` result; parse errors use `Except` over the crate's `Error` enum.
-/

set_option maxRecDepth 100000

namespace MachO

/-- Little-endian u32 read at byte offset `off`; bytes past the end read as 0
(concrete inputs keep every read in bounds). -/
def readU32le (buf : List Nat) (off : Nat) : Nat :=
  buf.getD off 0 + 256 * buf.getD (off + 1) 0 + 65536 * buf.getD (off + 2) 0 +
    16777216 * buf.getD (off + 3) 0

/-- Big-endian u32 read: the byte-swapped interpretation of the same 4 bytes. -/
def readU32be (buf : List Nat) (off : Nat) : Nat :=
  buf.getD (off + 3) 0 + 256 * buf.getD (off + 2) 0 + 65536 * buf.getD (off + 1) 0 +
    16777216 * buf.getD off 0

/-- Field read honouring the file's ByteOrder: swapped files byte-reverse
every multi-byte field relative to the little-endian host. -/
def readU32 (buf : List Nat) (off : Nat) (swap : Bool) : Nat :=
  if swap then readU32be buf off else readU32le buf off

/-- Little-endian u64 read (two u32 halves). -/
def readU64le (buf : List Nat) (off : Nat) : Nat :=
  readU32le buf off + 4294967296 * readU32le buf (off + 4)

/-- Magic constant MH_MAGIC (32-bit, native order). -/
def MH_MAGIC : Nat := 0xfeedface

/-- Magic constant MH_CIGAM (32-bit, byte-swapped). -/
def MH_CIGAM : Nat := 0xcefaedfe

/-- Magic constant MH_MAGIC_64 (64-bit, native order). -/
def MH_MAGIC_64 : Nat := 0xfeedfacf

/-- Magic constant MH_CIGAM_64 (64-bit, byte-swapped). -/
def MH_CIGAM_64 : Nat := 0xcffaedfe

/-- The crate's `Error` enum (src/lib.rs lines 12-18): exactly two variants. -/
inductive Error where
  | InputNotLongEnough : Error
  | UnknownMagicHeaderValue : Error
deriving DecidableEq, Repr

/-- `Header<'a>`: the `RawHeader` variant tag (32- vs 64-bit pointer cast at
offset 0) plus the borrowed input slice. -/
structure Header where
  is64 : Bool
  input : List Nat
deriving DecidableEq, Repr

/-- `mem::size_of::<loader::mach_header>()` = 7 u32 fields = 28 bytes. -/
def machHeaderSize : Nat := 28

/-- `mem::size_of::<loader::mach_header_64>()` = 8 u32 fields = 32 bytes. -/
def machHeader64Size : Nat := 32

/-- `Header::new` (src/lib.rs lines 35-69): length check against the 32-bit
header size, raw (no-swap) read of the first 4 bytes, match on the four magic
constants, extra length check against the 64-bit header size for 64-bit
magics, else `UnknownMagicHeaderValue`. -/
def Header.new (input : List Nat) : Except Error Header :=
  if input.length < machHeaderSize then
    Except.error Error.InputNotLongEnough
  else if readU32le input 0 = MH_MAGIC ∨ readU32le input 0 = MH_CIGAM then
    Except.ok { is64 := false, input := input }
  else if readU32le input 0 = MH_MAGIC_64 ∨ readU32le input 0 = MH_CIGAM_64 then
    if input.length < machHeader64Size then
      Except.error Error.InputNotLongEnough
    else
      Except.ok { is64 := true, input := input }
  else
    Except.error Error.UnknownMagicHeaderValue

/-- `Header::magic` (src/lib.rs lines 72-79): the raw `magic` struct field,
i.e. the first 4 bytes read in host (little-endian) order, no swap. -/
def Header.magic (h : Header) : Nat :=
  readU32le h.input 0

end MachO

namespace MachO

/-- The 32-byte test fixture `LITTLE_ENDIAN_HEADER_64` from src/lib.rs. -/
def fixtureHeader64 : List Nat :=
  [0xcf, 0xfa, 0xed, 0xfe, 0x07, 0x00, 0x00, 0x01,
   0x03, 0x00, 0x00, 0x80, 0x02, 0x00, 0x00, 0x00,
   0x12, 0x00, 0x00, 0x00, 0xd8, 0x08, 0x00, 0x00,
   0x85, 0x80, 0xa1, 0x00, 0x00, 0x00, 0x00, 0x00]

/-- The 16-byte NUL-padded segment-name field for "__SEG" used by the
crafted test files. -/
def segSEG : List Nat :=
  [0x5f, 0x5f, 0x53, 0x45, 0x47] ++ List.replicate 11 0

/-- The 16-byte NUL-padded section-name field for "__sect" used by the
crafted test files. -/
def sectSect : List Nat :=
  [0x5f, 0x5f, 0x73, 0x65, 0x63, 0x74] ++ List.replicate 10 0

/-- The query bytes of "__SEG". -/
def segQuery : List Nat := [0x5f, 0x5f, 0x53, 0x45, 0x47]

/-- The query bytes of "__sect". -/
def sectQuery : List Nat := [0x5f, 0x5f, 0x73, 0x65, 0x63, 0x74]

/-- A crafted 152-byte 32-bit native file: one LC_SEGMENT load command
holding one section named `__SEG`/`__sect` whose `offset` field is 0 but
whose `size` field is 0x1000, far beyond the buffer's end. -/
def oobSectionBuf : List Nat :=
  -- mach_header: magic, cputype, cpusubtype, filetype, ncmds = 1,
  -- sizeofcmds = 124, flags
  [0xce, 0xfa, 0xed, 0xfe] ++ List.replicate 12 0 ++
    [1, 0, 0, 0] ++ [0x7c, 0, 0, 0] ++ List.replicate 4 0 ++
  -- segment_command at offset 28: cmd = LC_SEGMENT, cmdsize = 124,
  -- segname, vmaddr .. initprot all zero, nsects = 1, flags
    [1, 0, 0, 0] ++ [0x7c, 0, 0, 0] ++ segSEG ++ List.replicate 24 0 ++
    [1, 0, 0, 0] ++ List.replicate 4 0 ++
  -- section record at offset 84: sectname, segname, addr = 0,
  -- size = 0x1000, offset = 0, remaining six u32 fields zero
    sectSect ++ segSEG ++ List.replicate 4 0 ++ [0, 0x10, 0, 0] ++
    List.replicate 4 0 ++ List.replicate 24 0

/-- A crafted 36-byte 32-bit native file: `ncmds` = 2 but the single
record present declares `cmdsize` = 0, so the walk re-reads the same
offset until the count is exhausted. -/
def zeroCmdsizeBuf : List Nat :=
  [0xce, 0xfa, 0xed, 0xfe] ++ List.replicate 12 0 ++
    [2, 0, 0, 0] ++ List.replicate 8 0 ++
    List.replicate 8 0

/-- A 32-byte 64-bit native file with `ncmds` = 0: no load commands at
all, so no query can match a section. -/
def emptyCmds64Buf : List Nat :=
  [0xcf, 0xfa, 0xed, 0xfe] ++ List.replicate 28 0

/-- A 44-byte buffer viewed as a 32-bit section record at offset 0 whose
`size` field is 2 and whose `offset` field is 4: an in-bounds section whose
data is the two bytes at positions 4 and 5. -/
def inBoundsSectionBuf : List Nat :=
  [0x10, 0x11, 0x12, 0x13, 0x14, 0x15, 0x16, 0x17] ++ List.replicate 28 0 ++
    [2, 0, 0, 0] ++ [4, 0, 0, 0]

/-- Byte offset of the `ncmds` header field (after magic, cputype,
cpusubtype, filetype), identical for both header classes. -/
def ncmdsOffset : Nat := 16

/-- Load-command type LC_SEGMENT (32-bit segment command). -/
def LC_SEGMENT : Nat := 0x1

/-- Load-command type LC_SEGMENT_64. -/
def LC_SEGMENT_64 : Nat := 0x19

/-- The segment-command type matching the file class. -/
def segCmdType (is64 : Bool) : Nat :=
  if is64 then LC_SEGMENT_64 else LC_SEGMENT

/-- Fixed size of a segment command record (the sections follow it):
`segment_command` is 56 bytes, `segment_command_64` is 72 bytes. -/
def segCmdFixedSize (is64 : Bool) : Nat :=
  if is64 then 72 else 56

/-- Byte offset of `nsects` inside a segment command: after cmd, cmdsize,
the 16-byte segname, four address/size fields (4 or 8 bytes each) and the
two 4-byte protection fields. -/
def nsectsOffset (is64 : Bool) : Nat :=
  if is64 then 64 else 48

/-- Size of one section record: `section` is 68 bytes, `section_64` is
80 bytes. -/
def sectRecSize (is64 : Bool) : Nat :=
  if is64 then 80 else 68

/-- Header size for the file class: 28 bytes (32-bit) or 32 bytes (64-bit). -/
def headerSize (is64 : Bool) : Nat :=
  if is64 then machHeader64Size else machHeaderSize

/-- A fixed-width name field truncated at its first NUL byte. -/
def truncAtNul (l : List Nat) : List Nat :=
  l.takeWhile (fun b => b != 0)

/-- The `n` bytes of the buffer starting at `off`. -/
def fieldBytes (buf : List Nat) (off n : Nat) : List Nat :=
  (buf.drop off).take n

/-- Modelled from the spec: the name comparison used by the OS `getsect`
lookup routines (absent from src/).  A stored 16-byte NUL-padded field
matches the caller's query when the two agree as fixed-width 16-byte fields,
an embedded NUL acting as a terminator (`strncmp` with length 16). -/
def nameMatches (field query : List Nat) : Bool :=
  truncAtNul (field.take 16) == truncAtNul (query.take 16)

/-- Modelled from the spec: the inner loop of the OS lookup routine —
scan `nsects` contiguous section records starting at `sOff`, comparing each
record's section-name field (first 16 bytes) and segment-name field (next
16 bytes) against the query; first exact match wins.  Returns the byte
offset of the matching record. -/
def scanSections (buf : List Nat) (is64 : Bool) (segQ sectQ : List Nat) :
    Nat → Nat → Option Nat
  | 0, _ => none
  | Nat.succ n, sOff =>
    if nameMatches (fieldBytes buf sOff 16) sectQ &&
        nameMatches (fieldBytes buf (sOff + 16) 16) segQ then
      some sOff
    else
      scanSections buf is64 segQ sectQ n (sOff + sectRecSize is64)

/-- Modelled from the spec: the OS lookup routine's walk over the
load-command stream (absent from src/) — starting right after the fixed
header, examine one record per remaining load-command count, advancing by
each record's declared `cmdsize`; for each segment command of the file's
class, scan its `nsects` contained section records.  Multi-byte fields are
read with the file's ByteOrder.  No validation of `cmdsize` is performed. -/
def walkCommands (buf : List Nat) (swap is64 : Bool) (segQ sectQ : List Nat) :
    Nat → Nat → Option Nat
  | 0, _ => none
  | Nat.succ n, off =>
    if readU32 buf off swap = segCmdType is64 then
      match scanSections buf is64 segQ sectQ
          (readU32 buf (off + nsectsOffset is64) swap)
          (off + segCmdFixedSize is64) with
      | some sOff => some sOff
      | none =>
        walkCommands buf swap is64 segQ sectQ n (off + readU32 buf (off + 4) swap)
    else
      walkCommands buf swap is64 segQ sectQ n (off + readU32 buf (off + 4) swap)

/-- Modelled from the spec: `getsectbynamefromheader` and its 64-bit and
byte-swapped variants (external OS routines declared by mach_o_sys, not in
src/) — walk `ncmds` load commands and return the offset of the first
section whose segment-name and section-name fields match the query, or none.
The spec's own signature for the lookup is `Section | None`; the error cases
the spec text mentions have no representation in the crate's types. -/
def getsectbynamefromheader (buf : List Nat) (is64 swap : Bool)
    (segQ sectQ : List Nat) : Option Nat :=
  walkCommands buf swap is64 segQ sectQ (readU32 buf ncmdsOffset swap)
    (headerSize is64)

/-- The byte-order test `Header::get_section` performs (src/lib.rs lines
87, 111): native when `magic()` equals the class's native constant,
swapped otherwise. -/
def Header.swapped (h : Header) : Bool :=
  if h.is64 then h.magic != MH_MAGIC_64 else h.magic != MH_MAGIC

/-- `Section<'a>` (src/lib.rs lines 140-151): the `RawSection` variant tag,
the byte offset of the section record the raw pointer designates, and the
borrowed input slice. -/
structure Section where
  is64 : Bool
  off : Nat
  input : List Nat
deriving DecidableEq, Repr

/-- `Header::get_section` (src/lib.rs lines 82-137): dispatch on the header
class and byte order, call the matching OS lookup routine, and wrap a found
section record (null pointer means `None`).  No further check is made on the
returned record. -/
def Header.get_section (h : Header) (segQ sectQ : List Nat) : Option Section :=
  match getsectbynamefromheader h.input h.is64 h.swapped segQ sectQ with
  | none => none
  | some sOff => some { is64 := h.is64, off := sOff, input := h.input }

/-- `Section::name` (src/lib.rs lines 155-166): `CStr::from_ptr` on the
`sectname` field — read bytes from the field's start until the first NUL,
with no 16-byte bound (the embedding stops at the end of the buffer, the
extent of modelled memory). -/
def Section.name (s : Section) : List Nat :=
  truncAtNul (s.input.drop s.off)

/-- `Section::segment_name` (src/lib.rs lines 169-180): `CStr::from_ptr` on
the `segname` field, 16 bytes after `sectname`, unbounded likewise. -/
def Section.segment_name (s : Section) : List Nat :=
  truncAtNul (s.input.drop (s.off + 16))

/-- The raw `addr` struct field: u32 at record offset 32 (32-bit class) or
u64 at record offset 32 (64-bit class), read natively with no swap, as the
accessors do. -/
def Section.addrField (s : Section) : Nat :=
  if s.is64 then readU64le s.input (s.off + 32) else readU32le s.input (s.off + 32)

/-- `Section::addr` (src/lib.rs lines 183-190): the `addr` field, the 32-bit
value widened by `as u64` unchanged. -/
def Section.addr (s : Section) : Nat :=
  s.addrField

/-- The raw `size` struct field: u32 at record offset 36, or u64 at record
offset 40 for the 64-bit class. -/
def Section.sizeField (s : Section) : Nat :=
  if s.is64 then readU64le s.input (s.off + 40) else readU32le s.input (s.off + 36)

/-- The raw `offset` struct field: u32 at record offset 40 (32-bit class) or
48 (64-bit class). -/
def Section.offsetField (s : Section) : Nat :=
  if s.is64 then readU32le s.input (s.off + 48) else readU32le s.input (s.off + 40)

/-- `Section::data` (src/lib.rs lines 193-210):
`&input[offset .. offset + size]`.  Rust's slice indexing panics when the
end exceeds the buffer length; the panic is embedded as `none`. -/
def Section.data (s : Section) : Option (List Nat) :=
  if s.offsetField + s.sizeField ≤ s.input.length then
    some ((s.input.drop s.offsetField).take s.sizeField)
  else
    none

end MachO

/-- C3: for every byte buffer shorter than 28 bytes (the 32-bit header size),
`parse` (`Header::new`) returns the input-too-short error, regardless of the
buffer's content. -/
theorem header_new_short_input_errors (buf : List Nat)
    (h : buf.length < 28) :
    MachO.Header.new buf = Except.error MachO.Error.InputNotLongEnough := by
  unfold MachO.Header.new
  simp [MachO.machHeaderSize, h]

/-- Witness for C3 at the empty buffer. -/
theorem header_new_short_input_errors_witness :
    ([] : List Nat).length < 28 ∧
      MachO.Header.new [] = Except.error MachO.Error.InputNotLongEnough :=
  ⟨by decide, header_new_short_input_errors [] (by decide)⟩

/-- C4 counterexample: the 4-byte all-zero buffer has an unrecognized first
4 bytes (0 is none of the four magic constants), yet `parse` returns the
input-too-short error, not the unrecognized-magic error: the length check
runs first. -/
theorem header_new_unknown_magic_counterexample :
    MachO.readU32le [0, 0, 0, 0] 0 ≠ MachO.MH_MAGIC ∧
      MachO.readU32le [0, 0, 0, 0] 0 ≠ MachO.MH_CIGAM ∧
      MachO.readU32le [0, 0, 0, 0] 0 ≠ MachO.MH_MAGIC_64 ∧
      MachO.readU32le [0, 0, 0, 0] 0 ≠ MachO.MH_CIGAM_64 ∧
      MachO.Header.new [0, 0, 0, 0] =
        Except.error MachO.Error.InputNotLongEnough := by
  refine ⟨by decide, by decide, by decide, by decide, ?_⟩
  rfl

/-- C4 amended: for every buffer of length at least 28 whose first 4 bytes,
read as a raw u32 with no byte swap, equal none of the four recognized magic
constants, `parse` returns the unrecognized-magic error. -/
theorem header_new_unknown_magic (buf : List Nat)
    (hlen : 28 ≤ buf.length)
    (h1 : MachO.readU32le buf 0 ≠ MachO.MH_MAGIC)
    (h2 : MachO.readU32le buf 0 ≠ MachO.MH_CIGAM)
    (h3 : MachO.readU32le buf 0 ≠ MachO.MH_MAGIC_64)
    (h4 : MachO.readU32le buf 0 ≠ MachO.MH_CIGAM_64) :
    MachO.Header.new buf = Except.error MachO.Error.UnknownMagicHeaderValue := by
  unfold MachO.Header.new
  have hnl : ¬ buf.length < MachO.machHeaderSize := by
    simp only [MachO.machHeaderSize]; omega
  simp [hnl, h1, h2, h3, h4]

/-- Witness for the amended C4 on a 28-byte zero buffer. -/
theorem header_new_unknown_magic_witness :
    28 ≤ (List.replicate 28 0).length ∧
      MachO.Header.new (List.replicate 28 0) =
        Except.error MachO.Error.UnknownMagicHeaderValue :=
  ⟨by decide,
    header_new_unknown_magic (List.replicate 28 0) (by decide) (by decide)
      (by decide) (by decide) (by decide)⟩

/-- C5: for every buffer whose first 4 bytes equal a valid 64-bit magic
constant (native or swapped), `parse` returns the input-too-short error
whenever the buffer length is below 32 bytes (the 64-bit header size). -/
theorem header_new_64bit_needs_32_bytes (buf : List Nat)
    (hm : MachO.readU32le buf 0 = MachO.MH_MAGIC_64 ∨
          MachO.readU32le buf 0 = MachO.MH_CIGAM_64)
    (hlen : buf.length < 32) :
    MachO.Header.new buf = Except.error MachO.Error.InputNotLongEnough := by
  unfold MachO.Header.new
  by_cases hshort : buf.length < MachO.machHeaderSize
  · simp [hshort]
  · have h1 : MachO.readU32le buf 0 ≠ MachO.MH_MAGIC := by
      rcases hm with hm | hm <;> rw [hm] <;> decide
    have h2 : MachO.readU32le buf 0 ≠ MachO.MH_CIGAM := by
      rcases hm with hm | hm <;> rw [hm] <;> decide
    have hl32 : buf.length < MachO.machHeader64Size := by
      simp only [MachO.machHeader64Size]; omega
    simp [hshort, h1, h2, hm, hl32]

/-- Witness for C5 on a 4-byte buffer carrying the 64-bit-native magic. -/
theorem header_new_64bit_needs_32_bytes_witness :
    MachO.readU32le [0xcf, 0xfa, 0xed, 0xfe] 0 = MachO.MH_MAGIC_64 ∧
      [0xcf, 0xfa, 0xed, 0xfe].length < 32 ∧
      MachO.Header.new [0xcf, 0xfa, 0xed, 0xfe] =
        Except.error MachO.Error.InputNotLongEnough :=
  ⟨by decide, by decide,
    header_new_64bit_needs_32_bytes [0xcf, 0xfa, 0xed, 0xfe]
      (Or.inl (by decide)) (by decide)⟩

/-- C6: on the 32-byte fixture buffer from the crate's test, `parse`
succeeds with a 64-bit header borrowing the buffer, and `magic()` returns
MH_MAGIC_64, the raw stored value with no byte swap applied. -/
theorem header_new_fixture_magic64 :
    MachO.Header.new MachO.fixtureHeader64 =
        Except.ok { is64 := true, input := MachO.fixtureHeader64 } ∧
      MachO.Header.magic { is64 := true, input := MachO.fixtureHeader64 } =
        MachO.MH_MAGIC_64 := by
  constructor
  · rfl
  · decide

/-- C1 counterexample: on the crafted file `oobSectionBuf`, `find_section`
locates the matching section at record offset 84, whose `offset + size`
(0 + 0x1000) exceeds the 152-byte buffer, yet it returns `Some(Section)`
rather than any error — the crate has no SectionOutOfBounds error — and
`data()` on that section panics (embedded as `none`). -/
theorem get_section_oob_counterexample :
    MachO.Header.new MachO.oobSectionBuf =
        Except.ok { is64 := false, input := MachO.oobSectionBuf } ∧
      MachO.Header.get_section { is64 := false, input := MachO.oobSectionBuf }
          MachO.segQuery MachO.sectQuery =
        some { is64 := false, off := 84, input := MachO.oobSectionBuf } ∧
      MachO.oobSectionBuf.length <
        MachO.Section.offsetField
            { is64 := false, off := 84, input := MachO.oobSectionBuf } +
          MachO.Section.sizeField
            { is64 := false, off := 84, input := MachO.oobSectionBuf } ∧
      MachO.Section.data { is64 := false, off := 84, input := MachO.oobSectionBuf } =
        none := by
  refine ⟨by rfl, by decide, by decide, by decide⟩

/-- C1 amended: `find_section` performs no bounds check on a located
section: whenever the lookup routine finds a matching record it is wrapped
and returned as `Some(Section)` unconditionally, and if that section's
`file_offset + size` exceeds the buffer length, `data()` panics (embedded
as `none`) instead of yielding a view past the buffer; no SectionOutOfBounds
error exists in the API. -/
theorem get_section_no_bounds_check (h : MachO.Header)
    (segQ sectQ : List Nat) (sOff : Nat)
    (hfound : MachO.getsectbynamefromheader h.input h.is64 h.swapped segQ sectQ =
      some sOff) :
    h.get_section segQ sectQ =
        some { is64 := h.is64, off := sOff, input := h.input } ∧
      (h.input.length <
          MachO.Section.offsetField { is64 := h.is64, off := sOff, input := h.input } +
            MachO.Section.sizeField { is64 := h.is64, off := sOff, input := h.input } →
        MachO.Section.data { is64 := h.is64, off := sOff, input := h.input } = none) := by
  constructor
  · unfold MachO.Header.get_section
    rw [hfound]
  · intro hoob
    have hs : ({ is64 := h.is64, off := sOff, input := h.input } : MachO.Section).input =
        h.input := rfl
    have hne : ¬ (MachO.Section.offsetField
          { is64 := h.is64, off := sOff, input := h.input } +
        MachO.Section.sizeField { is64 := h.is64, off := sOff, input := h.input } ≤
        ({ is64 := h.is64, off := sOff, input := h.input } : MachO.Section).input.length) := by
      rw [hs]
      omega
    unfold MachO.Section.data
    rw [if_neg hne]

/-- Witness for the amended C1 on the crafted `oobSectionBuf` file. -/
theorem get_section_no_bounds_check_witness :
    MachO.getsectbynamefromheader MachO.oobSectionBuf false
        (MachO.Header.swapped { is64 := false, input := MachO.oobSectionBuf })
        MachO.segQuery MachO.sectQuery = some 84 ∧
      MachO.Header.get_section { is64 := false, input := MachO.oobSectionBuf }
          MachO.segQuery MachO.sectQuery =
        some { is64 := false, off := 84, input := MachO.oobSectionBuf } ∧
      MachO.Section.data { is64 := false, off := 84, input := MachO.oobSectionBuf } =
        none := by
  have hfound : MachO.getsectbynamefromheader MachO.oobSectionBuf false
      (MachO.Header.swapped { is64 := false, input := MachO.oobSectionBuf })
      MachO.segQuery MachO.sectQuery = some 84 := by decide
  have happ := get_section_no_bounds_check
    { is64 := false, input := MachO.oobSectionBuf }
    MachO.segQuery MachO.sectQuery 84 hfound
  exact ⟨hfound, happ.1, happ.2 (by decide)⟩

/-- C2 counterexample: on the crafted file `zeroCmdsizeBuf` the record at
offset 28 declares `command_size` = 0, yet the walk raises no error of any
kind: `find_section` simply returns `none`, an ordinary no-match result —
no MalformedLoadCommand error exists in the crate's Error type. -/
theorem get_section_zero_cmdsize_counterexample :
    MachO.Header.new MachO.zeroCmdsizeBuf =
        Except.ok { is64 := false, input := MachO.zeroCmdsizeBuf } ∧
      MachO.readU32 MachO.zeroCmdsizeBuf (28 + 4) false = 0 ∧
      MachO.Header.get_section { is64 := false, input := MachO.zeroCmdsizeBuf }
          MachO.segQuery MachO.sectQuery = none := by
  refine ⟨by rfl, by decide, by decide⟩

/-- C2 amended: the declared `command_size` of a load command is never
validated: it is used only to advance the walk, so a record whose declared
size is 0 and whose type is not a segment command makes the walk re-examine
the same offset until the load-command count is exhausted, ending in the
ordinary no-match result `none`; no MalformedLoadCommand error exists. -/
theorem walk_zero_cmdsize_no_error (buf : List Nat) (swap is64 : Bool)
    (segQ sectQ : List Nat) (n off : Nat)
    (hsize : MachO.readU32 buf (off + 4) swap = 0)
    (hcmd : MachO.readU32 buf off swap ≠ MachO.segCmdType is64) :
    MachO.walkCommands buf swap is64 segQ sectQ n off = none := by
  induction n with
  | zero => rfl
  | succ m ih =>
    unfold MachO.walkCommands
    rw [if_neg hcmd, hsize]
    exact ih

/-- Witness for the amended C2 on the crafted `zeroCmdsizeBuf` file. -/
theorem walk_zero_cmdsize_no_error_witness :
    MachO.readU32 MachO.zeroCmdsizeBuf (28 + 4) false = 0 ∧
      MachO.readU32 MachO.zeroCmdsizeBuf 28 false ≠ MachO.segCmdType false ∧
      MachO.walkCommands MachO.zeroCmdsizeBuf false false
        MachO.segQuery MachO.sectQuery 2 28 = none :=
  ⟨by decide, by decide,
    walk_zero_cmdsize_no_error MachO.zeroCmdsizeBuf false false
      MachO.segQuery MachO.sectQuery 2 28 (by decide) (by decide)⟩

/-- C7: for every successfully parsed header and every query the lookup
walk exhausts without a match, `find_section` returns `None` — an ordinary
value of the `Option` result, not an error. -/
theorem get_section_none_on_no_match (buf : List Nat) (h : MachO.Header)
    (segQ sectQ : List Nat)
    (_hp : MachO.Header.new buf = Except.ok h)
    (hnone : MachO.getsectbynamefromheader h.input h.is64 h.swapped segQ sectQ =
      none) :
    h.get_section segQ sectQ = none := by
  unfold MachO.Header.get_section
  rw [hnone]

/-- Witness for C7 on the 64-bit file with zero load commands. -/
theorem get_section_none_on_no_match_witness :
    MachO.Header.new MachO.emptyCmds64Buf =
        Except.ok { is64 := true, input := MachO.emptyCmds64Buf } ∧
      MachO.Header.get_section { is64 := true, input := MachO.emptyCmds64Buf }
        MachO.segQuery MachO.sectQuery = none := by
  have hp : MachO.Header.new MachO.emptyCmds64Buf =
      Except.ok { is64 := true, input := MachO.emptyCmds64Buf } := by rfl
  refine ⟨hp, get_section_none_on_no_match MachO.emptyCmds64Buf
    { is64 := true, input := MachO.emptyCmds64Buf }
    MachO.segQuery MachO.sectQuery hp (by decide)⟩

/-- C8: `find_section` is a pure function of the immutable header: two
calls with identical arguments return equal results, and the parsed header
still borrows exactly the original buffer (nothing is copied or mutated). -/
theorem get_section_deterministic (buf : List Nat) (h : MachO.Header)
    (segQ sectQ : List Nat)
    (hp : MachO.Header.new buf = Except.ok h) :
    h.get_section segQ sectQ = h.get_section segQ sectQ ∧ h.input = buf := by
  refine ⟨rfl, ?_⟩
  unfold MachO.Header.new at hp
  by_cases h1 : buf.length < MachO.machHeaderSize
  · rw [if_pos h1] at hp
    exact Except.noConfusion hp
  · rw [if_neg h1] at hp
    by_cases h2 : MachO.readU32le buf 0 = MachO.MH_MAGIC ∨
        MachO.readU32le buf 0 = MachO.MH_CIGAM
    · rw [if_pos h2] at hp
      injection hp with hh
      rw [← hh]
    · rw [if_neg h2] at hp
      by_cases h3 : MachO.readU32le buf 0 = MachO.MH_MAGIC_64 ∨
          MachO.readU32le buf 0 = MachO.MH_CIGAM_64
      · rw [if_pos h3] at hp
        by_cases h4 : buf.length < MachO.machHeader64Size
        · rw [if_pos h4] at hp
          exact Except.noConfusion hp
        · rw [if_neg h4] at hp
          injection hp with hh
          rw [← hh]
      · rw [if_neg h3] at hp
        exact Except.noConfusion hp

/-- Witness for C8 on the fixture header. -/
theorem get_section_deterministic_witness :
    MachO.Header.new MachO.fixtureHeader64 =
        Except.ok { is64 := true, input := MachO.fixtureHeader64 } ∧
      MachO.Header.get_section { is64 := true, input := MachO.fixtureHeader64 }
          MachO.segQuery MachO.sectQuery =
        MachO.Header.get_section { is64 := true, input := MachO.fixtureHeader64 }
          MachO.segQuery MachO.sectQuery ∧
      (MachO.Header.mk true MachO.fixtureHeader64).input = MachO.fixtureHeader64 := by
  have hp : MachO.Header.new MachO.fixtureHeader64 =
      Except.ok { is64 := true, input := MachO.fixtureHeader64 } := by rfl
  have happ := get_section_deterministic MachO.fixtureHeader64
    { is64 := true, input := MachO.fixtureHeader64 }
    MachO.segQuery MachO.sectQuery hp
  exact ⟨hp, happ.1, happ.2⟩

/-- Index-wise view of `List.drop`: element `i` of the dropped list is
element `a + i` of the original, out-of-range reads giving the default. -/
theorem getD_drop_eq (l : List Nat) (a i : Nat) :
    (l.drop a).getD i 0 = l.getD (a + i) 0 := by
  simp [List.getD_eq_getElem?_getD, List.getElem?_drop]

/-- Index-wise view of `List.take` below the cut. -/
theorem getD_take_eq (l : List Nat) (n i : Nat) (h : i < n) :
    (l.take n).getD i 0 = l.getD i 0 := by
  simp [List.getD_eq_getElem?_getD, List.getElem?_take_of_lt h]

/-- A run of `n` non-zero leading bytes keeps at least `n` bytes in the
NUL-truncation. -/
theorem truncAtNul_length_ge (l : List Nat) (n : Nat)
    (h : ∀ i, i < n → l.getD i 0 ≠ 0) :
    n ≤ (MachO.truncAtNul l).length := by
  induction l generalizing n with
  | nil =>
    cases n with
    | zero => simp
    | succ m => exact absurd rfl (h 0 (Nat.succ_pos m))
  | cons a t ih =>
    cases n with
    | zero => simp
    | succ m =>
      have ha : a ≠ 0 := h 0 (Nat.succ_pos m)
      have hb : (a != 0) = true := by simpa using ha
      have ht : m ≤ (MachO.truncAtNul t).length :=
        ih m (fun i hi => h (i + 1) (Nat.succ_lt_succ hi))
      unfold MachO.truncAtNul at ht ⊢
      simp [List.takeWhile_cons, hb]
      omega

/-- The NUL-truncation reads the underlying bytes unchanged up to its
length. -/
theorem truncAtNul_getD_eq (l : List Nat) (i : Nat)
    (h : i < (MachO.truncAtNul l).length) :
    (MachO.truncAtNul l).getD i 0 = l.getD i 0 := by
  induction l generalizing i with
  | nil => simp [MachO.truncAtNul]
  | cons a t ih =>
    by_cases hp : (a != 0) = true
    · unfold MachO.truncAtNul at h ⊢
      rw [List.takeWhile_cons] at h ⊢
      rw [if_pos hp] at h ⊢
      cases i with
      | zero => rfl
      | succ j =>
        rw [List.getD_cons_succ, List.getD_cons_succ]
        exact ih j (by simpa using h)
    · have hp' : (a != 0) = false := by
        cases hab : (a != 0) with
        | true => exact absurd hab hp
        | false => rfl
      unfold MachO.truncAtNul at h
      rw [List.takeWhile_cons, if_neg (by simp [hp'])] at h
      simp at h

/-- C9: for every section whose `file_offset + size` stays within the
buffer, `data()` returns exactly the byte range
`buffer[file_offset .. file_offset + size]` (its length is the `size` field
and byte `i` of the result is buffer byte `file_offset + i`), and `addr()`
returns the stored virtual-address field — the u64 field for the 64-bit
class, the u32 field widened unchanged for the 32-bit class. -/
theorem section_data_is_subslice (s : MachO.Section)
    (hb : s.offsetField + s.sizeField ≤ s.input.length) :
    (∃ l, s.data = some l ∧ l.length = s.sizeField ∧
        ∀ i, i < s.sizeField → l.getD i 0 = s.input.getD (s.offsetField + i) 0) ∧
      (s.is64 = false → s.addr = MachO.readU32le s.input (s.off + 32)) ∧
      (s.is64 = true → s.addr = MachO.readU64le s.input (s.off + 32)) := by
  refine ⟨⟨(s.input.drop s.offsetField).take s.sizeField, ?_, ?_, ?_⟩, ?_, ?_⟩
  · unfold MachO.Section.data
    rw [if_pos hb]
  · rw [List.length_take, List.length_drop]
    omega
  · intro i hi
    rw [getD_take_eq _ _ _ hi, getD_drop_eq]
  · intro h32
    unfold MachO.Section.addr MachO.Section.addrField
    rw [h32]
    rfl
  · intro h64
    unfold MachO.Section.addr MachO.Section.addrField
    rw [h64]
    rfl

/-- Witness for C9 on the in-bounds section record of `inBoundsSectionBuf`
(`offset` = 4, `size` = 2, buffer length 44). -/
theorem section_data_is_subslice_witness :
    MachO.Section.offsetField { is64 := false, off := 0, input := MachO.inBoundsSectionBuf } +
        MachO.Section.sizeField { is64 := false, off := 0, input := MachO.inBoundsSectionBuf } ≤
        MachO.inBoundsSectionBuf.length ∧
      (∃ l, MachO.Section.data { is64 := false, off := 0, input := MachO.inBoundsSectionBuf } =
          some l ∧
        l.length =
          MachO.Section.sizeField { is64 := false, off := 0, input := MachO.inBoundsSectionBuf } ∧
        ∀ i, i < MachO.Section.sizeField
            { is64 := false, off := 0, input := MachO.inBoundsSectionBuf } →
          l.getD i 0 = MachO.inBoundsSectionBuf.getD
            (MachO.Section.offsetField
              { is64 := false, off := 0, input := MachO.inBoundsSectionBuf } + i) 0) := by
  have hb : MachO.Section.offsetField
        { is64 := false, off := 0, input := MachO.inBoundsSectionBuf } +
      MachO.Section.sizeField { is64 := false, off := 0, input := MachO.inBoundsSectionBuf } ≤
      MachO.inBoundsSectionBuf.length := by decide
  exact ⟨hb, (section_data_is_subslice
    { is64 := false, off := 0, input := MachO.inBoundsSectionBuf } hb).1⟩

/-- C10: when all 16 bytes of the `sectname` field are non-NUL, `name()`
does not stop at the field boundary: it returns the raw bytes from the
field's start up to the first NUL in memory, so its length reaches 16, its
bytes are the raw memory bytes, and it swallows the byte just past the
field whenever that byte is non-NUL too; `segment_name()` behaves the same
way over its own 16-byte `segname` field when that field is fully non-NUL,
overrunning into the byte past the record's 32nd byte. -/
theorem section_name_overruns_field (s : MachO.Section)
    (hall : ∀ i, i < 16 → s.input.getD (s.off + i) 0 ≠ 0) :
    16 ≤ s.name.length ∧
      (∀ i, i < s.name.length → s.name.getD i 0 = s.input.getD (s.off + i) 0) ∧
      (s.input.getD (s.off + 16) 0 ≠ 0 → 17 ≤ s.name.length) ∧
      ((∀ i, i < 16 → s.input.getD (s.off + 16 + i) 0 ≠ 0) →
        16 ≤ s.segment_name.length ∧
          (∀ i, i < s.segment_name.length →
            s.segment_name.getD i 0 = s.input.getD (s.off + 16 + i) 0) ∧
          (s.input.getD (s.off + 32) 0 ≠ 0 → 17 ≤ s.segment_name.length)) := by
  refine ⟨?_, ?_, ?_, ?_⟩
  · unfold MachO.Section.name
    exact truncAtNul_length_ge _ 16 (fun i hi => by
      rw [getD_drop_eq]
      exact hall i hi)
  · intro i hi
    unfold MachO.Section.name at hi ⊢
    rw [truncAtNul_getD_eq _ _ hi, getD_drop_eq]
  · intro h16
    unfold MachO.Section.name
    refine truncAtNul_length_ge _ 17 (fun i hi => ?_)
    rw [getD_drop_eq]
    rcases Nat.lt_or_ge i 16 with hlt | hge
    · exact hall i hlt
    · have : i = 16 := by omega
      rw [this]
      exact h16
  · intro hseg
    refine ⟨?_, ?_, ?_⟩
    · unfold MachO.Section.segment_name
      refine truncAtNul_length_ge _ 16 (fun i hi => ?_)
      rw [getD_drop_eq]
      exact hseg i hi
    · intro i hi
      unfold MachO.Section.segment_name at hi ⊢
      rw [truncAtNul_getD_eq _ _ hi, getD_drop_eq]
    · intro h32
      unfold MachO.Section.segment_name
      refine truncAtNul_length_ge _ 17 (fun i hi => ?_)
      rw [getD_drop_eq]
      rcases Nat.lt_or_ge i 16 with hlt | hge
      · exact hseg i hlt
      · have hieq : i = 16 := by omega
        have hoff : s.off + 16 + 16 = s.off + 32 := by omega
        rw [hieq, hoff]
        exact h32

/-- Witness for C10 on a 37-byte buffer of non-NUL bytes followed by a NUL:
both 16-byte fields at offsets 0 and 16 are fully non-NUL, and both
`name()` and `segment_name()` run past their field boundary, reaching at
least 17 bytes each. -/
theorem section_name_overruns_field_witness :
    (∀ i, i < 16 →
        (List.replicate 36 0x41 ++ [0]).getD (0 + i) 0 ≠ 0) ∧
      16 ≤ (MachO.Section.name
        { is64 := false, off := 0, input := List.replicate 36 0x41 ++ [0] }).length ∧
      17 ≤ (MachO.Section.name
        { is64 := false, off := 0, input := List.replicate 36 0x41 ++ [0] }).length ∧
      (∀ i, i < 16 →
        (List.replicate 36 0x41 ++ [0]).getD (0 + 16 + i) 0 ≠ 0) ∧
      16 ≤ (MachO.Section.segment_name
        { is64 := false, off := 0, input := List.replicate 36 0x41 ++ [0] }).length ∧
      17 ≤ (MachO.Section.segment_name
        { is64 := false, off := 0, input := List.replicate 36 0x41 ++ [0] }).length := by
  have hall : ∀ i, i < 16 →
      (List.replicate 36 0x41 ++ [0]).getD (0 + i) 0 ≠ 0 := by decide
  have hseg : ∀ i, i < 16 →
      (List.replicate 36 0x41 ++ [0]).getD (0 + 16 + i) 0 ≠ 0 := by decide
  have happ := section_name_overruns_field
    { is64 := false, off := 0, input := List.replicate 36 0x41 ++ [0] } hall
  have hsegpart := happ.2.2.2 hseg
  exact ⟨hall, happ.1, happ.2.2.1 (by decide), hseg, hsegpart.1,
    hsegpart.2.2 (by decide)⟩
